import Mathlib

/-!
Shallow embedding of the camera focus controller of `src/script.js`
(class methods `_onMouseClick`, `_resetCamera`, `_updateCameraFocus`,
constants `SCENE_CONSTANTS.CAMERA_FOCUS_SPEED` and
`SCENE_CONSTANTS.CAMERA_INITIAL_POSITION`).

The controller state consists of the mutable globals of the script:
`camera.position` together with `orbitControls.target` (the current pose),
`cameraTargetPosition` together with `cameraTargetLookAt` (the focus target),
and the boolean flag `isCameraFocusing` (the focus state:
`true` is `Transitioning`, `false` is `Idle`).

Coordinates are rationals.  The script compares Euclidean distances with
`distanceTo(...) < 0.1`; since both sides are nonnegative this is equivalent
to comparing squared distances with `0.1^2`, which is what the embedding
does (`dist2 a b < threshold^2`), keeping every predicate decidable over ℚ.

The structures are parameterised by the coordinate type so that the
target-storing operation can also be examined on JavaScript-style numbers
(`JSNum`, rationals extended with a `nan` element) for the claim about
non-finite inputs.
-/

namespace SolarFocus

/-- A 3-component vector, as used for positions and look-at points. -/
structure Vec3 (α : Type) where
  x : α
  y : α
  z : α
deriving DecidableEq, Repr

/-- A camera pose: position plus look-at point. -/
structure Pose (α : Type) where
  position : Vec3 α
  lookAt : Vec3 α
deriving DecidableEq, Repr

/-- The controller state: the current pose (`camera.position` /
`orbitControls.target`), the stored focus target (`cameraTargetPosition` /
`cameraTargetLookAt`) and the flag `isCameraFocusing`. -/
structure Sys (α : Type) where
  pose : Pose α
  target : Pose α
  focusing : Bool
deriving DecidableEq, Repr

/-- Three.js `a.lerp(b, t)`: `a + (b - a) * t`. -/
def lerp (a b t : ℚ) : ℚ := a + (b - a) * t

/-- Componentwise lerp of vectors, as `Vector3.lerp` does. -/
def lerpV (a b : Vec3 ℚ) (t : ℚ) : Vec3 ℚ :=
  ⟨lerp a.x b.x t, lerp a.y b.y t, lerp a.z b.z t⟩

/-- Squared Euclidean distance between two vectors.
`a.distanceTo(b) < c` (for `0 ≤ c`) is equivalent to `dist2 a b < c^2`. -/
def dist2 (a b : Vec3 ℚ) : ℚ :=
  (a.x - b.x) ^ 2 + (a.y - b.y) ^ 2 + (a.z - b.z) ^ 2

/-- The convergence threshold `0.1` of `_updateCameraFocus`. -/
def threshold : ℚ := 1 / 10

/-- `SCENE_CONSTANTS.CAMERA_FOCUS_SPEED = 0.05`, the fixed interpolation
factor the script passes to `lerp` each frame. -/
def CAMERA_FOCUS_SPEED : ℚ := 1 / 20

/-- `SCENE_CONSTANTS.CAMERA_INITIAL_POSITION = {x: 0, y: 150, z: 300}`. -/
def CAMERA_INITIAL_POSITION : Vec3 ℚ := ⟨0, 150, 300⟩

/-- One call of `_updateCameraFocus`, with the interpolation factor `dt`
kept as a parameter (the script always instantiates it with
`CAMERA_FOCUS_SPEED`; the spec's `tick` takes it as an argument).
If `isCameraFocusing` is false the method returns at once.  Otherwise it
lerps position and look-at toward the targets, and if both new distances
to the targets are below `0.1` it snaps the pose to the exact target and
clears `isCameraFocusing`; otherwise the interpolated pose is kept and the
flag stays set. -/
def tickSys (dt : ℚ) (s : Sys ℚ) : Sys ℚ :=
  if s.focusing then
    let newPos := lerpV s.pose.position s.target.position dt
    let newLook := lerpV s.pose.lookAt s.target.lookAt dt
    if dist2 newPos s.target.position < threshold ^ 2 ∧
        dist2 newLook s.target.lookAt < threshold ^ 2 then
      { pose := s.target, target := s.target, focusing := false }
    else
      { pose := { position := newPos, lookAt := newLook },
        target := s.target, focusing := true }
  else s

/-- The tick exactly as the script runs it, with the fixed factor. -/
def tickCode : Sys ℚ → Sys ℚ := tickSys CAMERA_FOCUS_SPEED

/-- The effect of a focus request on the controller state, common to the
planet-hit branch of `_onMouseClick` (lines 1136-1147) and `_resetCamera`
(lines 1176-1184): store the target and set `isCameraFocusing = true`,
unconditionally.  Neither code path inspects the coordinates. -/
def requestFocus {α : Type} (t : Pose α) (s : Sys α) : Sys α :=
  { pose := s.pose, target := t, focusing := true }

/-- The no-intersection branch of `_onMouseClick` (lines 1151-1158): if a
click hits no planet mesh, clear `isCameraFocusing` when it was set and do
nothing else; pose and stored target are untouched. -/
def cancelClick {α : Type} (s : Sys α) : Sys α :=
  if s.focusing then { s with focusing := false } else s

/-- The planet-hit branch of `_onMouseClick`: the target position is the
planet's world position offset by `(2r, 3r, 5r)` for planet radius `r`,
and the target look-at is the planet position itself. -/
def onClickPlanet (planetPos : Vec3 ℚ) (radius : ℚ) (s : Sys ℚ) : Sys ℚ :=
  requestFocus
    { position := ⟨planetPos.x + radius * 2, planetPos.y + radius * 3,
        planetPos.z + radius * 5⟩,
      lookAt := planetPos } s

/-- `_resetCamera`: request a focus transition back to the initial camera
position, looking at the origin. -/
def resetCamera (s : Sys ℚ) : Sys ℚ :=
  requestFocus { position := CAMERA_INITIAL_POSITION, lookAt := ⟨0, 0, 0⟩ } s

/-- JavaScript-style numbers: a rational, or the non-finite `nan`
(standing for `NaN`/`Infinity`, anything failing `Number.isFinite`). -/
inductive JSNum where
  | num (q : ℚ)
  | nan
deriving DecidableEq, Repr

/-- `Number.isFinite` on `JSNum`. -/
def JSNum.isFinite : JSNum → Bool
  | .num _ => true
  | .nan => false

end SolarFocus

/-! ### Concrete states used by the witnesses and counterexamples -/

namespace SolarFocus

/-- The scenario state of spec section 8: pose at the origin, target
position `(10,0,0)`, target look-at at the origin, mid-transition. -/
def s9 : Sys ℚ :=
  { pose := ⟨⟨0, 0, 0⟩, ⟨0, 0, 0⟩⟩,
    target := ⟨⟨10, 0, 0⟩, ⟨0, 0, 0⟩⟩,
    focusing := true }

/-- The controller state right after the script starts: camera at
`CAMERA_INITIAL_POSITION`, orbit target at the origin, the target vectors
freshly constructed (zero), not focusing. -/
def initState : Sys ℚ :=
  { pose := { position := CAMERA_INITIAL_POSITION, lookAt := ⟨0, 0, 0⟩ },
    target := { position := ⟨0, 0, 0⟩, lookAt := ⟨0, 0, 0⟩ },
    focusing := false }

/-- A sample focus target. -/
def tEx : Pose ℚ := { position := ⟨10, 0, 0⟩, lookAt := ⟨0, 0, 0⟩ }

/-- A focus target whose position has a non-finite x coordinate, as in
`requestFocus({position:(NaN,0,0), lookAt:(0,0,0)})`. -/
def nanTarget : Pose JSNum :=
  { position := ⟨.nan, .num 0, .num 0⟩, lookAt := ⟨.num 0, .num 0, .num 0⟩ }

/-- An idle state with an all-finite stored target, distinct from
`nanTarget`. -/
def s3 : Sys JSNum :=
  { pose := ⟨⟨.num 0, .num 0, .num 0⟩, ⟨.num 0, .num 0, .num 0⟩⟩,
    target := ⟨⟨.num 1, .num 0, .num 0⟩, ⟨.num 0, .num 0, .num 0⟩⟩,
    focusing := false }

/-- A second sample focus target (the reset view target). -/
def tEx2 : Pose ℚ := { position := ⟨0, 150, 300⟩, lookAt := ⟨0, 0, 0⟩ }

/-- A transitioning state whose pose already coincides with its target, so
the next tick snaps and goes idle. -/
def wC4 : Sys ℚ := { pose := tEx, target := tEx, focusing := true }

end SolarFocus

/-! ### Helper lemmas -/

namespace SolarFocus

theorem dist2_nonneg (a b : Vec3 ℚ) : 0 ≤ dist2 a b := by
  have hx := sq_nonneg (a.x - b.x)
  have hy := sq_nonneg (a.y - b.y)
  have hz := sq_nonneg (a.z - b.z)
  unfold dist2
  linarith

theorem dist2_self (a : Vec3 ℚ) : dist2 a a = 0 := by
  simp [dist2]

theorem dist2_lerpV (a b : Vec3 ℚ) (t : ℚ) :
    dist2 (lerpV a b t) b = (1 - t) ^ 2 * dist2 a b := by
  simp only [dist2, lerpV, lerp]
  ring

theorem lerpV_one (a b : Vec3 ℚ) : lerpV a b 1 = b := by
  simp [lerpV, lerp]

theorem tick_not_focusing (dt : ℚ) (s : Sys ℚ) (h : s.focusing = false) :
    tickSys dt s = s := by
  simp [tickSys, h]

theorem tick_target_eq (dt : ℚ) (s : Sys ℚ) : (tickSys dt s).target = s.target := by
  unfold tickSys
  by_cases h : s.focusing <;> simp [h]
  split <;> rfl

theorem tick_conv (dt : ℚ) (s : Sys ℚ) (h : s.focusing = true)
    (hc : dist2 (lerpV s.pose.position s.target.position dt) s.target.position < threshold ^ 2 ∧
          dist2 (lerpV s.pose.lookAt s.target.lookAt dt) s.target.lookAt < threshold ^ 2) :
    tickSys dt s = { pose := s.target, target := s.target, focusing := false } := by
  simp [tickSys, h, hc.1, hc.2]

theorem tick_noconv (dt : ℚ) (s : Sys ℚ) (h : s.focusing = true)
    (hc : ¬ (dist2 (lerpV s.pose.position s.target.position dt) s.target.position < threshold ^ 2 ∧
             dist2 (lerpV s.pose.lookAt s.target.lookAt dt) s.target.lookAt < threshold ^ 2)) :
    tickSys dt s =
      { pose := { position := lerpV s.pose.position s.target.position dt,
                  lookAt := lerpV s.pose.lookAt s.target.lookAt dt },
        target := s.target, focusing := true } := by
  rw [tickSys]
  simp only [h, if_true]
  rw [if_neg hc]

theorem tick_focusing_rev (dt : ℚ) (s : Sys ℚ)
    (h : (tickSys dt s).focusing = true) : s.focusing = true := by
  by_contra hf
  rw [Bool.not_eq_true] at hf
  rw [tick_not_focusing dt s hf, hf] at h
  exact Bool.false_ne_true h

theorem tick_snap (dt : ℚ) (s : Sys ℚ) (h : s.focusing = true)
    (h2 : (tickSys dt s).focusing = false) :
    (tickSys dt s).pose = s.target := by
  by_cases hc : dist2 (lerpV s.pose.position s.target.position dt) s.target.position < threshold ^ 2 ∧
      dist2 (lerpV s.pose.lookAt s.target.lookAt dt) s.target.lookAt < threshold ^ 2
  · rw [tick_conv dt s h hc]
  · rw [tick_noconv dt s h hc] at h2
    exact absurd h2 (by simp)

theorem tick_step_pose (dt : ℚ) (s : Sys ℚ) (h : s.focusing = true)
    (h2 : (tickSys dt s).focusing = true) :
    (tickSys dt s).pose =
      { position := lerpV s.pose.position s.target.position dt,
        lookAt := lerpV s.pose.lookAt s.target.lookAt dt } := by
  by_cases hc : dist2 (lerpV s.pose.position s.target.position dt) s.target.position < threshold ^ 2 ∧
      dist2 (lerpV s.pose.lookAt s.target.lookAt dt) s.target.lookAt < threshold ^ 2
  · rw [tick_conv dt s h hc] at h2
    exact absurd h2 (by simp)
  · rw [tick_noconv dt s h hc]

end SolarFocus

namespace SolarFocus

theorem iter_target (dt : ℚ) (n : ℕ) (s : Sys ℚ) :
    ((tickSys dt)^[n] s).target = s.target := by
  induction n with
  | zero => rfl
  | succ n ih =>
    rw [Function.iterate_succ_apply', tick_target_eq, ih]

theorem iter_stay (dt : ℚ) (s : Sys ℚ) (h : s.focusing = false) (k : ℕ) :
    (tickSys dt)^[k] s = s :=
  Function.iterate_fixed (tick_not_focusing dt s h) k

theorem iter_idle_pose (dt : ℚ) (n : ℕ) (s : Sys ℚ) (h : s.focusing = true)
    (hn : ((tickSys dt)^[n] s).focusing = false) :
    ((tickSys dt)^[n] s).pose = s.target := by
  induction n with
  | zero =>
    rw [Function.iterate_zero_apply] at hn
    rw [h] at hn
    exact Bool.noConfusion hn
  | succ n ih =>
    rw [Function.iterate_succ_apply'] at hn ⊢
    by_cases hf : ((tickSys dt)^[n] s).focusing
    · have := tick_snap dt _ hf hn
      rw [this, iter_target]
    · rw [Bool.not_eq_true] at hf
      rw [tick_not_focusing dt _ hf]
      exact ih hf

theorem iter_dist (dt : ℚ) (s : Sys ℚ) (n : ℕ)
    (hn : ((tickSys dt)^[n] s).focusing = true) :
    dist2 ((tickSys dt)^[n] s).pose.position s.target.position
        = ((1 - dt) ^ 2) ^ n * dist2 s.pose.position s.target.position ∧
    dist2 ((tickSys dt)^[n] s).pose.lookAt s.target.lookAt
        = ((1 - dt) ^ 2) ^ n * dist2 s.pose.lookAt s.target.lookAt := by
  induction n with
  | zero => simp
  | succ n ih =>
    rw [Function.iterate_succ_apply'] at hn ⊢
    have hf : ((tickSys dt)^[n] s).focusing = true := tick_focusing_rev dt _ hn
    obtain ⟨ihp, ihl⟩ := ih hf
    have hstep := tick_step_pose dt _ hf hn
    have htgt : ((tickSys dt)^[n] s).target = s.target := iter_target dt n s
    constructor
    · rw [hstep]
      show dist2 (lerpV _ _ dt) _ = _
      rw [htgt, dist2_lerpV, ihp, pow_succ]
      ring
    · rw [hstep]
      show dist2 (lerpV _ _ dt) _ = _
      rw [htgt, dist2_lerpV, ihl, pow_succ]
      ring

/-- Core convergence lemma: from any starting pose and any target, with an
interpolation factor in `(0,1]`, iterated ticks reach the snapped state. -/
theorem converges (t p : Pose ℚ) (dt : ℚ) (h1 : 0 < dt) (h2 : dt ≤ 1) :
    ∃ n : ℕ,
      ((tickSys dt)^[n] { pose := p, target := t, focusing := true }).focusing = false ∧
      ((tickSys dt)^[n] { pose := p, target := t, focusing := true }).pose = t := by
  set s0 : Sys ℚ := { pose := p, target := t, focusing := true } with hs0
  set r : ℚ := (1 - dt) ^ 2 with hr
  have hr0 : 0 ≤ r := sq_nonneg _
  have hr1 : r < 1 := by
    have ha : 0 ≤ 1 - dt := by linarith
    have hb : 1 - dt < 1 := by linarith
    exact pow_lt_one₀ ha hb two_ne_zero
  set d0p : ℚ := dist2 p.position t.position with hd0p
  set d0l : ℚ := dist2 p.lookAt t.lookAt with hd0l
  have hd0p0 : 0 ≤ d0p := dist2_nonneg _ _
  have hd0l0 : 0 ≤ d0l := dist2_nonneg _ _
  set c : ℚ := max d0p d0l + 1 with hc
  have hcpos : 0 < c := by
    have := le_max_left d0p d0l
    have := le_max_right d0p d0l
    simp only [hc]
    nlinarith [le_max_left d0p d0l]
  have hdpc : d0p ≤ c := by
    have := le_max_left d0p d0l
    simp only [hc]; linarith
  have hdlc : d0l ≤ c := by
    have := le_max_right d0p d0l
    simp only [hc]; linarith
  have hthr : (0:ℚ) < threshold ^ 2 := by norm_num [threshold]
  obtain ⟨N, hN⟩ := exists_pow_lt_of_lt_one (div_pos hthr hcpos) hr1
  have hrN0 : 0 ≤ r ^ N := pow_nonneg hr0 N
  have hkeyp : r ^ N * d0p < threshold ^ 2 := by
    have h3 : r ^ N * d0p ≤ r ^ N * c := mul_le_mul_of_nonneg_left hdpc hrN0
    have h4 : r ^ N * c < threshold ^ 2 / c * c :=
      mul_lt_mul_of_pos_right hN hcpos
    rw [div_mul_cancel₀ _ (ne_of_gt hcpos)] at h4
    linarith
  have hkeyl : r ^ N * d0l < threshold ^ 2 := by
    have h3 : r ^ N * d0l ≤ r ^ N * c := mul_le_mul_of_nonneg_left hdlc hrN0
    have h4 : r ^ N * c < threshold ^ 2 / c * c :=
      mul_lt_mul_of_pos_right hN hcpos
    rw [div_mul_cancel₀ _ (ne_of_gt hcpos)] at h4
    linarith
  by_cases hf : ((tickSys dt)^[N] s0).focusing = true
  · -- still transitioning after N ticks: the distances are now below the
    -- threshold, so the next tick snaps.
    have hdists := iter_dist dt s0 N hf
    have htgt : ((tickSys dt)^[N] s0).target = t := iter_target dt N s0
    refine ⟨N + 1, ?_⟩
    have hcond :
        dist2 (lerpV ((tickSys dt)^[N] s0).pose.position
            ((tickSys dt)^[N] s0).target.position dt)
            ((tickSys dt)^[N] s0).target.position < threshold ^ 2 ∧
        dist2 (lerpV ((tickSys dt)^[N] s0).pose.lookAt
            ((tickSys dt)^[N] s0).target.lookAt dt)
            ((tickSys dt)^[N] s0).target.lookAt < threshold ^ 2 := by
      rw [htgt]
      constructor
      · rw [dist2_lerpV, hdists.1]
        have : r * (r ^ N * d0p) ≤ 1 * (r ^ N * d0p) :=
          mul_le_mul_of_nonneg_right hr1.le (by positivity)
        calc (1 - dt) ^ 2 * (r ^ N * d0p) = r * (r ^ N * d0p) := by rw [hr]
          _ ≤ 1 * (r ^ N * d0p) := this
          _ = r ^ N * d0p := one_mul _
          _ < threshold ^ 2 := hkeyp
      · rw [dist2_lerpV, hdists.2]
        have : r * (r ^ N * d0l) ≤ 1 * (r ^ N * d0l) :=
          mul_le_mul_of_nonneg_right hr1.le (by positivity)
        calc (1 - dt) ^ 2 * (r ^ N * d0l) = r * (r ^ N * d0l) := by rw [hr]
          _ ≤ 1 * (r ^ N * d0l) := this
          _ = r ^ N * d0l := one_mul _
          _ < threshold ^ 2 := hkeyl
    rw [Function.iterate_succ_apply', tick_conv dt _ hf hcond]
    exact ⟨rfl, htgt⟩
  · rw [Bool.not_eq_true] at hf
    exact ⟨N, hf, iter_idle_pose dt N s0 rfl hf⟩

end SolarFocus

/-! ### Claim theorems -/

namespace SolarFocus

/-- C1: For every Transitioning state, a tick first moves the pose by
componentwise lerp toward the target, and then, if the distance from the
new position to the target position is less than 0.1 and the distance from
the new look-at to the target look-at is less than 0.1 (expressed on
squared distances: `dist2 _ _ < threshold ^ 2`), it sets both position and
look-at exactly to the target values and transitions the state to Idle;
if either distance is at least 0.1, the state stays Transitioning with the
lerped pose. -/
theorem C1_tick_transitioning (dt : ℚ) (s : Sys ℚ) (h : s.focusing = true) :
    ((dist2 (lerpV s.pose.position s.target.position dt) s.target.position < threshold ^ 2 ∧
      dist2 (lerpV s.pose.lookAt s.target.lookAt dt) s.target.lookAt < threshold ^ 2) →
      tickSys dt s = { pose := s.target, target := s.target, focusing := false }) ∧
    (¬ (dist2 (lerpV s.pose.position s.target.position dt) s.target.position < threshold ^ 2 ∧
        dist2 (lerpV s.pose.lookAt s.target.lookAt dt) s.target.lookAt < threshold ^ 2) →
      tickSys dt s =
        { pose := { position := lerpV s.pose.position s.target.position dt,
                    lookAt := lerpV s.pose.lookAt s.target.lookAt dt },
          target := s.target, focusing := true }) :=
  ⟨fun hc => tick_conv dt s h hc, fun hc => tick_noconv dt s h hc⟩

/-- Witness for C1 at the concrete state `s9` and the script's fixed
interpolation factor. -/
theorem C1_tick_transitioning_witness :
    s9.focusing = true ∧
    (((dist2 (lerpV s9.pose.position s9.target.position CAMERA_FOCUS_SPEED) s9.target.position <
          threshold ^ 2 ∧
        dist2 (lerpV s9.pose.lookAt s9.target.lookAt CAMERA_FOCUS_SPEED) s9.target.lookAt <
          threshold ^ 2) →
        tickSys CAMERA_FOCUS_SPEED s9 =
          { pose := s9.target, target := s9.target, focusing := false }) ∧
      (¬ (dist2 (lerpV s9.pose.position s9.target.position CAMERA_FOCUS_SPEED) s9.target.position <
            threshold ^ 2 ∧
          dist2 (lerpV s9.pose.lookAt s9.target.lookAt CAMERA_FOCUS_SPEED) s9.target.lookAt <
            threshold ^ 2) →
        tickSys CAMERA_FOCUS_SPEED s9 =
          { pose := { position := lerpV s9.pose.position s9.target.position CAMERA_FOCUS_SPEED,
                      lookAt := lerpV s9.pose.lookAt s9.target.lookAt CAMERA_FOCUS_SPEED },
            target := s9.target, focusing := true })) :=
  ⟨rfl, C1_tick_transitioning CAMERA_FOCUS_SPEED s9 rfl⟩

/-- C2: For every target `t`, starting pose `p` and interpolation factor in
`(0,1]`, repeated ticks from the Transitioning state eventually reach Idle
with the pose exactly equal to `t` (and stay there). -/
theorem C2_eventually_converges (t p : Pose ℚ) (dt : ℚ) (h1 : 0 < dt) (h2 : dt ≤ 1) :
    ∃ n : ℕ, ∀ m : ℕ, n ≤ m →
      ((tickSys dt)^[m] { pose := p, target := t, focusing := true }).focusing = false ∧
      ((tickSys dt)^[m] { pose := p, target := t, focusing := true }).pose = t := by
  obtain ⟨n, hf, hp⟩ := converges t p dt h1 h2
  refine ⟨n, fun m hm => ?_⟩
  have hsplit : (tickSys dt)^[m] { pose := p, target := t, focusing := true } =
      (tickSys dt)^[m - n]
        ((tickSys dt)^[n] { pose := p, target := t, focusing := true }) := by
    rw [← Function.iterate_add_apply]
    congr 1
    omega
  rw [hsplit, iter_stay dt _ hf]
  exact ⟨hf, hp⟩

/-- Witness for C2: target `tEx`, starting pose at the origin, factor 1/2. -/
theorem C2_eventually_converges_witness :
    ((0:ℚ) < 1 / 2 ∧ (1:ℚ) / 2 ≤ 1) ∧
    ∃ n : ℕ, ∀ m : ℕ, n ≤ m →
      ((tickSys (1 / 2))^[m]
          { pose := ⟨⟨0, 0, 0⟩, ⟨0, 0, 0⟩⟩, target := tEx, focusing := true }).focusing = false ∧
      ((tickSys (1 / 2))^[m]
          { pose := ⟨⟨0, 0, 0⟩, ⟨0, 0, 0⟩⟩, target := tEx, focusing := true }).pose = tEx :=
  ⟨⟨by norm_num, by norm_num⟩,
    C2_eventually_converges tEx ⟨⟨0, 0, 0⟩, ⟨0, 0, 0⟩⟩ (1 / 2) (by norm_num) (by norm_num)⟩

end SolarFocus

namespace SolarFocus

/-- C3 counterexample: the claim says a focus request whose target has a
non-finite coordinate (position `(NaN,0,0)`) leaves the stored target and
the focus state unchanged.  On the code it does not: neither
`_onMouseClick` nor `_resetCamera` inspects the coordinates, so the target
is stored and `isCameraFocusing` is set even for the non-finite target. -/
theorem C3_no_validation_cex :
    nanTarget.position.x.isFinite = false ∧
    (requestFocus nanTarget s3).focusing ≠ s3.focusing ∧
    (requestFocus nanTarget s3).target ≠ s3.target := by
  refine ⟨rfl, ?_, ?_⟩
  · simp [requestFocus, s3]
  · simp [requestFocus, s3, nanTarget]

/-- C3 amended: a focus request stores the target and sets the state to
Transitioning unconditionally, for every target including ones with
non-finite coordinates; the code contains no finiteness validation and no
`InvalidTarget` error. -/
theorem C3_request_unconditional (t : Pose JSNum) (s : Sys JSNum) :
    requestFocus t s = { pose := s.pose, target := t, focusing := true } :=
  rfl

/-- C4 counterexample: the invariant "whenever Idle, the pose equals the
last issued target within ε" fails on the code.  Starting from the initial
state, request focus on `tEx`, run one scripted tick (factor 0.05), then
click on empty space: the controller becomes Idle with its pose still far
from the stored target `tEx`. -/
theorem C4_idle_invariant_cex :
    (cancelClick (tickCode (requestFocus tEx initState))).focusing = false ∧
    ¬ (dist2 (cancelClick (tickCode (requestFocus tEx initState))).pose.position
          (cancelClick (tickCode (requestFocus tEx initState))).target.position <
            threshold ^ 2 ∧
       dist2 (cancelClick (tickCode (requestFocus tEx initState))).pose.lookAt
          (cancelClick (tickCode (requestFocus tEx initState))).target.lookAt <
            threshold ^ 2) := by
  norm_num [cancelClick, tickCode, tickSys, requestFocus, initState, tEx, lerpV,
    lerp, dist2, threshold, CAMERA_FOCUS_SPEED, CAMERA_INITIAL_POSITION]

/-- C4 amended: the invariant holds for Idle states produced by the tick
operation: whenever a tick moves the controller from Transitioning to
Idle, the pose is snapped exactly to the stored target, hence is within ε
of it.  (It fails for Idle states produced by the empty-click cancel path,
see the counterexample.) -/
theorem C4_tick_idle_invariant (dt : ℚ) (s : Sys ℚ) (h : s.focusing = true)
    (h2 : (tickSys dt s).focusing = false) :
    (tickSys dt s).pose = (tickSys dt s).target ∧
    dist2 (tickSys dt s).pose.position (tickSys dt s).target.position < threshold ^ 2 ∧
    dist2 (tickSys dt s).pose.lookAt (tickSys dt s).target.lookAt < threshold ^ 2 := by
  have hp := tick_snap dt s h h2
  have ht := tick_target_eq dt s
  have he : (tickSys dt s).pose = (tickSys dt s).target := by rw [hp, ht]
  refine ⟨he, ?_, ?_⟩ <;> rw [he, dist2_self] <;> norm_num [threshold]

/-- Witness for the amended C4 at the concrete state `wC4` with factor 1/2. -/
theorem C4_tick_idle_invariant_witness :
    wC4.focusing = true ∧ (tickSys (1 / 2) wC4).focusing = false ∧
    ((tickSys (1 / 2) wC4).pose = (tickSys (1 / 2) wC4).target ∧
     dist2 (tickSys (1 / 2) wC4).pose.position (tickSys (1 / 2) wC4).target.position <
       threshold ^ 2 ∧
     dist2 (tickSys (1 / 2) wC4).pose.lookAt (tickSys (1 / 2) wC4).target.lookAt <
       threshold ^ 2) :=
  ⟨rfl, by norm_num [tickSys, wC4, tEx, lerpV, lerp, dist2, threshold],
    C4_tick_idle_invariant (1 / 2) wC4 rfl
      (by norm_num [tickSys, wC4, tEx, lerpV, lerp, dist2, threshold])⟩

/-- C5: requesting target `t1`, ticking any number of times, then
requesting `t2`, immediately replaces the stored target with `t2`, and the
subsequent transition converges to `t2`, never ending at a distinct `t1`. -/
theorem C5_retarget (s : Sys ℚ) (t1 t2 : Pose ℚ) (k : ℕ) (dt : ℚ)
    (h1 : 0 < dt) (h2 : dt ≤ 1) :
    (requestFocus t2 ((tickSys dt)^[k] (requestFocus t1 s))).target = t2 ∧
    ∃ n : ℕ,
      ((tickSys dt)^[n] (requestFocus t2 ((tickSys dt)^[k] (requestFocus t1 s)))).focusing
        = false ∧
      ((tickSys dt)^[n] (requestFocus t2 ((tickSys dt)^[k] (requestFocus t1 s)))).pose = t2 ∧
      (t1 ≠ t2 →
        ((tickSys dt)^[n] (requestFocus t2 ((tickSys dt)^[k] (requestFocus t1 s)))).pose ≠ t1) := by
  refine ⟨rfl, ?_⟩
  obtain ⟨n, hf, hp⟩ :=
    converges t2 ((tickSys dt)^[k] (requestFocus t1 s)).pose dt h1 h2
  exact ⟨n, hf, hp, fun hne hcontra => hne (hcontra.symm.trans hp)⟩

/-- Witness for C5: from the initial state, request `tEx`, tick three
times, then request `tEx2`; the transition converges to `tEx2`. -/
theorem C5_retarget_witness :
    ((0:ℚ) < 1 / 2 ∧ (1:ℚ) / 2 ≤ 1) ∧
    ((requestFocus tEx2 ((tickSys (1 / 2))^[3] (requestFocus tEx initState))).target = tEx2 ∧
     ∃ n : ℕ,
       ((tickSys (1 / 2))^[n]
           (requestFocus tEx2 ((tickSys (1 / 2))^[3] (requestFocus tEx initState)))).focusing
         = false ∧
       ((tickSys (1 / 2))^[n]
           (requestFocus tEx2 ((tickSys (1 / 2))^[3] (requestFocus tEx initState)))).pose = tEx2 ∧
       (tEx ≠ tEx2 →
         ((tickSys (1 / 2))^[n]
             (requestFocus tEx2 ((tickSys (1 / 2))^[3] (requestFocus tEx initState)))).pose
           ≠ tEx)) :=
  ⟨⟨by norm_num, by norm_num⟩,
    C5_retarget initState tEx tEx2 3 (1 / 2) (by norm_num) (by norm_num)⟩

/-- C6: when the controller is Idle, a tick leaves the whole state —
in particular the pose — unchanged, and the state remains Idle. -/
theorem C6_idle_noop (dt : ℚ) (s : Sys ℚ) (h : s.focusing = false) :
    tickSys dt s = s :=
  tick_not_focusing dt s h

/-- Witness for C6 at the initial (idle) state with factor 1/2. -/
theorem C6_idle_noop_witness :
    initState.focusing = false ∧ tickSys (1 / 2) initState = initState :=
  ⟨rfl, C6_idle_noop (1 / 2) initState rfl⟩

end SolarFocus

namespace SolarFocus

/-- C7: issuing the same focus request twice in succession yields exactly
the same state, and hence the same trajectory of poses under subsequent
ticks, as issuing it once. -/
theorem C7_idempotent (s : Sys ℚ) (t : Pose ℚ) (dt : ℚ) (n : ℕ) :
    (tickSys dt)^[n] (requestFocus t (requestFocus t s)) =
      (tickSys dt)^[n] (requestFocus t s) :=
  rfl

/-- C8: a single tick with interpolation factor 1 from a Transitioning
state is a full jump: the lerp lands exactly on the target, the
convergence check passes, the snap applies, and the state becomes Idle. -/
theorem C8_full_jump (s : Sys ℚ) (h : s.focusing = true) :
    tickSys 1 s = { pose := s.target, target := s.target, focusing := false } := by
  apply tick_conv 1 s h
  constructor <;> rw [lerpV_one, dist2_self] <;> norm_num [threshold]

/-- Witness for C8 at the concrete state `s9`. -/
theorem C8_full_jump_witness :
    s9.focusing = true ∧
    tickSys 1 s9 = { pose := s9.target, target := s9.target, focusing := false } :=
  ⟨rfl, C8_full_jump s9 rfl⟩

/-- C9: from pose `{(0,0,0),(0,0,0)}` with target `{(10,0,0),(0,0,0)}` and
factor 1/2 each tick, the position is `(5,0,0)` after tick 1 and
`(7.5,0,0)` after tick 2, keeps halving the remaining distance through
tick 6 (position `(315/32,0,0)`, still Transitioning since the distance
`10/64` is at least 0.1), and at tick 7, where the lerped distance `10/128`
first drops below 0.1, the pose snaps to the exact target and the state
becomes Idle. -/
theorem C9_halving_scenario :
    ((tickSys (1 / 2))^[1] s9).focusing = true ∧
    ((tickSys (1 / 2))^[1] s9).pose.position = ⟨5, 0, 0⟩ ∧
    ((tickSys (1 / 2))^[2] s9).focusing = true ∧
    ((tickSys (1 / 2))^[2] s9).pose.position = ⟨15 / 2, 0, 0⟩ ∧
    ((tickSys (1 / 2))^[3] s9).focusing = true ∧
    ((tickSys (1 / 2))^[3] s9).pose.position = ⟨35 / 4, 0, 0⟩ ∧
    ((tickSys (1 / 2))^[4] s9).focusing = true ∧
    ((tickSys (1 / 2))^[4] s9).pose.position = ⟨75 / 8, 0, 0⟩ ∧
    ((tickSys (1 / 2))^[5] s9).focusing = true ∧
    ((tickSys (1 / 2))^[5] s9).pose.position = ⟨155 / 16, 0, 0⟩ ∧
    ((tickSys (1 / 2))^[6] s9).focusing = true ∧
    ((tickSys (1 / 2))^[6] s9).pose.position = ⟨315 / 32, 0, 0⟩ ∧
    ((tickSys (1 / 2))^[7] s9).focusing = false ∧
    ((tickSys (1 / 2))^[7] s9).pose = s9.target := by
  norm_num [tickSys, lerpV, lerp, dist2, threshold, s9,
    Function.iterate_succ_apply, Function.iterate_zero_apply]

/-- C10: a click whose raycast hits no planet mesh sets the state to Idle
and changes nothing else: the pose keeps its current (possibly partially
interpolated) value — it is neither snapped to the in-flight target nor
moved — and the stored target is untouched.  When the state was already
Idle the resulting state equals the original one, so such a click changes
nothing at all. -/
theorem C10_empty_click_cancels (s : Sys ℚ) :
    cancelClick s = { pose := s.pose, target := s.target, focusing := false } := by
  cases s with
  | mk p t f => cases f <;> simp [cancelClick]

end SolarFocus
